import Mathlib

/-!
Verification of the lmstudio-web-plugin tool provider (final revision of
`index.ts`): the `Search` and `Visit` tool implementations, their
configuration schema, URL construction, and the whitespace normalisation
applied to extracted article text.

Machine integers do not occur; JS strings are modelled as `List Char` /
`String` (Lean's `String` is definitionally a list of characters).
External effects (the HTTP fetch and the Readability library) are modelled
as explicit inputs: the handler receives the HTTP response it would have
observed, and `Visit` receives the extraction function as an oracle.
A thrown JS exception is modelled as `Except.error`.
-/

namespace WebPlugin

/-! ## Configuration model (`configSchema`)

The schema declares a `search` scope (baseURL, maxResults, engines,
safeSearch, language) and a `visit` scope (forceRaw, maxContentLength).
`maxResults` has slider 0..50 with hint "0 = Unlimited"; `maxContentLength`
has slider 0..65536 with hint "0 = Unlimited". -/

structure SearchConfig where
  baseURL : String
  maxResults : Nat
  engines : List String
  safeSearch : String
  language : String

structure VisitConfig where
  forceRaw : Bool
  maxContentLength : Nat

structure PluginConfig where
  search : SearchConfig
  visit : VisitConfig

/-! ## Safe-search mapping

From the final `Search` implementation:
`safeSearchValue === "Moderate" ? 1 : safeSearchValue === "Strict" ? 0 : 2`. -/

def safeSearchNum (v : String) : Nat :=
  if v == "Moderate" then 1 else if v == "Strict" then 0 else 2

/-! ## URL construction

`new URL(base)` followed by `url.searchParams.append(...)` and
`url.toString()`.  The WHATWG URL serialiser renders the search params with
the `application/x-www-form-urlencoded` serialiser: byte 0x20 becomes `+`,
ASCII alphanumerics and `*`, `-`, `.`, `_` are kept, every other byte of the
UTF-8 encoding becomes `%XX` with uppercase hex digits. -/

def hexDigitChar (n : Nat) : Char :=
  if n < 10 then Char.ofNat (48 + n) else Char.ofNat (55 + n)

def utf8Bytes (n : Nat) : List Nat :=
  if n < 0x80 then [n]
  else if n < 0x800 then [0xC0 + n / 0x40, 0x80 + n % 0x40]
  else if n < 0x10000 then
    [0xE0 + n / 0x1000, 0x80 + n / 0x40 % 0x40, 0x80 + n % 0x40]
  else
    [0xF0 + n / 0x40000, 0x80 + n / 0x1000 % 0x40, 0x80 + n / 0x40 % 0x40,
      0x80 + n % 0x40]

def formEncodeByte (b : Nat) : List Char :=
  ['%', hexDigitChar (b / 16), hexDigitChar (b % 16)]

def isFormSafe (c : Char) : Bool :=
  ('a' ≤ c && c ≤ 'z') || ('A' ≤ c && c ≤ 'Z') || ('0' ≤ c && c ≤ '9') ||
  c == '*' || c == '-' || c == '.' || c == '_'

/-- `application/x-www-form-urlencoded` serialisation of one name or value. -/
def formEncode (s : String) : List Char :=
  (s.data.map fun c =>
    if c == ' ' then ['+']
    else if isFormSafe c then [c]
    else ((utf8Bytes c.toNat).map formEncodeByte).flatten).flatten

/-- Serialise a list of (name, value) pairs: `name=value` joined by `&`. -/
def serializeParams (ps : List (String × String)) : List Char :=
  List.intercalate ['&'] (ps.map fun p => formEncode p.1 ++ '=' :: formEncode p.2)

def commaString : String := ","

/-- The query parameters appended by the `Search` implementation, in
append order: `q`, `engines` (comma-joined), `language`, `format=json`,
`safesearch` (numeric). -/
def searchParamsList (config : SearchConfig) (query : String) :
    List (String × String) :=
  [("q", query),
   ("engines", String.intercalate commaString config.engines),
   ("language", config.language),
   ("format", "json"),
   ("safesearch", toString (safeSearchNum config.safeSearch))]

/-- The URL string the Search handler fetches, for a base URL that is
already normalised and carries no query or fragment (as the default
`http://localhost/search` is). -/
def searchURL (config : SearchConfig) (query : String) : List Char :=
  config.baseURL.data ++ '?' :: serializeParams (searchParamsList config query)

/-! ## Search handler -/

/-- One element of the upstream `results` array (the fields the handler
reads: `r.title`, `r.content`, `r.url`). -/
structure RawResult where
  url : String
  title : String
  content : String
deriving DecidableEq

/-- The parsed JSON body of the search response. `results = none` models a
body whose `results` member is absent or not an array (then
`data.results.map` throws a TypeError). -/
structure SearchJsonData where
  results : Option (List RawResult)
deriving DecidableEq

/-- The HTTP response the Search handler observes.  `jsonBody = none`
models a 2xx body that is not valid JSON (then `response.json()` throws). -/
structure SearchHttpResponse where
  ok : Bool
  statusText : String
  jsonBody : Option SearchJsonData
deriving DecidableEq

/-- The mapped result shape `{title, summary: r.content, url}`. -/
structure SearchResultOut where
  title : String
  summary : String
  url : String
deriving DecidableEq

inductive SearchReturn where
  | str (s : String)
  | output (results : List SearchResultOut)
deriving DecidableEq

/-- The final `Search` tool implementation.  `Except.error ()` models an
uncaught thrown exception (SyntaxError from `response.json()`, TypeError
from `data.results.map`). -/
def Search.implementation (config : PluginConfig) (query : String)
    (response : SearchHttpResponse) : Except Unit SearchReturn :=
  if !response.ok then
    .ok (.str ("Failed to make request: " ++ response.statusText))
  else
    match response.jsonBody with
    | none => .error ()
    | some data =>
      match data.results with
      | none => .error ()
      | some rs =>
        .ok (.output
          ((rs.map fun r => ⟨r.title, r.content, r.url⟩).take
            config.search.maxResults))

/-! ## Whitespace normalisation used by Visit

`(article.textContent ?? "").replace(/\n\s*\n/g, "\n").replace(/[ \t]+/g, " ").trim()` -/

/-- JS whitespace: the `\s` character class, which is also exactly the set
removed by `String.prototype.trim` (ECMA WhiteSpace ∪ LineTerminator). -/
def jsWs (c : Char) : Bool :=
  let n := c.toNat
  n == 0x09 || n == 0x0A || n == 0x0B || n == 0x0C || n == 0x0D ||
  n == 0x20 || n == 0xA0 || n == 0x1680 ||
  (0x2000 ≤ n && n ≤ 0x200A) || n == 0x2028 || n == 0x2029 ||
  n == 0x202F || n == 0x205F || n == 0x3000 || n == 0xFEFF

def isSpaceTab (c : Char) : Bool := c == ' ' || c == '\t'

/-- Index of the last `'\n'` inside the maximal `jsWs` prefix of the list,
if any.  For the regex `\n\s*\n` at a position whose character is `'\n'`,
the greedy `\s*\n` tail ends exactly at this index of the remainder. -/
def wsPrefixLastNl : List Char → Option Nat
  | [] => none
  | c :: cs =>
    if jsWs c then
      match wsPrefixLastNl cs with
      | some k => some (k + 1)
      | none => if c == '\n' then some 0 else none
    else none

/-- Fuel-driven worker for `collapseNl`; with fuel at least the list
length the fuel never runs out, and the structural recursion lets the
kernel evaluate it. -/
def collapseNlF : Nat → List Char → List Char
  | _, [] => []
  | 0, l => l
  | fuel + 1, c :: cs =>
    if c == '\n' then
      match wsPrefixLastNl cs with
      | some k => '\n' :: collapseNlF fuel (cs.drop (k + 1))
      | none => c :: collapseNlF fuel cs
    else c :: collapseNlF fuel cs

/-- Models the JS global regex replace `s.replace(/\n\s*\n/g, "\n")`:
leftmost matches, greedy `\s*`, scanning resumes after each match. -/
def collapseNl (l : List Char) : List Char := collapseNlF l.length l

/-- Fuel-driven worker for `collapseSpaces`. -/
def collapseSpacesF : Nat → List Char → List Char
  | _, [] => []
  | 0, l => l
  | fuel + 1, c :: cs =>
    if isSpaceTab c then ' ' :: collapseSpacesF fuel (cs.dropWhile isSpaceTab)
    else c :: collapseSpacesF fuel cs

/-- Models the JS global regex replace `s.replace(/[ \t]+/g, " ")`. -/
def collapseSpaces (l : List Char) : List Char := collapseSpacesF l.length l

/-- Models `String.prototype.trim()`. -/
def jsTrim (l : List Char) : List Char :=
  ((l.dropWhile jsWs).reverse.dropWhile jsWs).reverse

/-! ## Visit handler -/

/-- The value produced by `new Readability(...).parse()` when it does not
return `null`.  Every field of the JS article object may itself be null. -/
structure Article where
  title : Option String
  textContent : Option String
  excerpt : Option String
  byline : Option String
  siteName : Option String
  lang : Option String
  publishedTime : Option String
deriving DecidableEq

/-- The structured object the Visit tool returns on extraction success. -/
structure ArticleOut where
  title : Option String
  content : String
  excerpt : Option String
  byline : Option String
  siteName : Option String
  lang : Option String
  publishedTime : Option String
deriving DecidableEq

inductive VisitReturn where
  | str (s : String)
  | article (a : ArticleOut)
deriving DecidableEq

structure VisitHttpResponse where
  ok : Bool
  statusText : String
  body : String
deriving DecidableEq

def extractionFailureMsg : String := "Failed to extract readable content."

def truncationMarker : String := "...Text truncated due to length limit"

/-- `let cleanText = (article.textContent ?? "").replace(...).replace(...).trim()` -/
def visitCleanText (article : Article) : List Char :=
  jsTrim (collapseSpaces (collapseNl (article.textContent.getD "").data))

/-- The `content` field of the returned object: `cleanText`, truncated and
marker-suffixed when `maxContentLength > 0 && cleanText.length > maxContentLength`. -/
def visitContent (maxContentLength : Nat) (article : Article) : List Char :=
  let t := visitCleanText article
  if maxContentLength > 0 ∧ t.length > maxContentLength then
    t.take maxContentLength ++ truncationMarker.data
  else t

/-- The final `Visit` tool implementation.  `readability` is the oracle for
`new Readability(new JSDOM(html).window.document).parse()`. -/
def Visit.implementation (readability : String → Option Article)
    (config : PluginConfig) (url : String) (returnRaw : Bool)
    (response : VisitHttpResponse) : VisitReturn :=
  if !response.ok then
    .str ("Failed to make request: " ++ response.statusText)
  else
    let html := response.body
    if returnRaw || config.visit.forceRaw then .str html
    else
      match readability html with
      | none => .str extractionFailureMsg
      | some article =>
        .article ⟨article.title,
          ⟨visitContent config.visit.maxContentLength article⟩,
          article.excerpt, article.byline, article.siteName, article.lang,
          article.publishedTime⟩

/-! ## Properties of normalised text -/

/-- No two adjacent newline characters. -/
def noDoubleNewline (l : List Char) : Prop :=
  l.Chain' fun a b => ¬(a = '\n' ∧ b = '\n')

/-- No two adjacent characters that are both a space or a tab. -/
def noDoubleSpaceTab (l : List Char) : Prop :=
  l.Chain' fun a b => ¬(isSpaceTab a = true ∧ isSpaceTab b = true)

/-- Neither the first nor the last character is JS whitespace. -/
def noEdgeWs (l : List Char) : Prop :=
  (∀ c ∈ l.head?, jsWs c = false) ∧ (∀ c ∈ l.getLast?, jsWs c = false)

/-- Boolean check that every adjacent pair of a list satisfies `p`;
executable counterpart used to evaluate `Chain'` facts on literals. -/
def adjOK (p : Char → Char → Bool) : List Char → Bool
  | a :: b :: rest => p a b && adjOK p (b :: rest)
  | _ => true

/-! ## Concrete instances used by the claim theorems and witnesses -/

def baseSearchConfig : SearchConfig :=
  ⟨"http://localhost/search", 5, ["google", "bing", "wikipedia"], "Off", "en-US"⟩

def baseConfig : PluginConfig := ⟨baseSearchConfig, ⟨false, 4096⟩⟩

def forceRawConfig : PluginConfig := ⟨baseSearchConfig, ⟨true, 4096⟩⟩

/-- The failing configuration for the `maxResults = 0` claim. -/
def zeroMaxConfig : PluginConfig :=
  ⟨⟨"http://localhost/search", 0, ["google", "bing", "wikipedia"], "Off", "en-US"⟩,
    ⟨false, 4096⟩⟩

def truncConfig : PluginConfig := ⟨baseSearchConfig, ⟨false, 5⟩⟩

/-- The configuration of the URL-construction example (engines `["bing"]`,
language `en-US`, default safe-search `Off`). -/
def c8SearchConfig : SearchConfig := ⟨"http://localhost/search", 3, ["bing"], "Off", "en-US"⟩

def sampleRaw : RawResult := ⟨"https://example.com/a", "Example A", "summary of a"⟩

def oneResultResponse : SearchHttpResponse := ⟨true, "OK", some ⟨some [sampleRaw]⟩⟩

def badJsonResponse : SearchHttpResponse := ⟨true, "OK", none⟩

def searchFailResponse : SearchHttpResponse := ⟨false, "Forbidden", none⟩

def visitFailResponse : VisitHttpResponse := ⟨false, "Not Found", ""⟩

def visitOkResponse : VisitHttpResponse := ⟨true, "OK", "<html><body>hello</body></html>"⟩

def messyArticle : Article :=
  ⟨some "T", some "  a  b\n\n\n c\t\td  ", some "E", none, none, none, none⟩

def longArticle : Article :=
  ⟨some "T", some "abcdefghij", none, none, none, none, none⟩

def nullContentArticle : Article := ⟨some "T", none, none, none, none, none, none⟩

def readNone : String → Option Article := fun _ => none

def readMessy : String → Option Article := fun _ => some messyArticle

def readLong : String → Option Article := fun _ => some longArticle

def readNullContent : String → Option Article := fun _ => some nullContentArticle

/-! ## Claim theorems -/

/-- C1: the Search handler is claimed to return all upstream results
unfiltered when `maxResults = 0` ("0 = Unlimited" per the config hint).
The code instead evaluates `results.slice(0, 0)`, the empty array: with
`maxResults = 0` and one upstream result, the handler returns an empty
`results` array. -/
theorem search_maxResultsZero_returnsEmpty :
    Search.implementation zeroMaxConfig "weather today" oneResultResponse =
      .ok (.output []) ∧
    oneResultResponse.jsonBody = some ⟨some [sampleRaw]⟩ :=
  ⟨rfl, rfl⟩

/-- C2: on a non-2xx upstream response, both handlers return the plain
string `Failed to make request: <statusText>` (which has the status text as
a suffix, hence as a substring), for every response body — no JSON parsing
or extraction happens. -/
theorem handlers_non2xx_returnStatusText
    (readability : String → Option Article) (config : PluginConfig)
    (query u : String) (returnRaw : Bool)
    (sresp : SearchHttpResponse) (vresp : VisitHttpResponse)
    (hs : sresp.ok = false) (hv : vresp.ok = false) :
    Search.implementation config query sresp =
        .ok (.str ("Failed to make request: " ++ sresp.statusText)) ∧
    Visit.implementation readability config u returnRaw vresp =
        .str ("Failed to make request: " ++ vresp.statusText) ∧
    sresp.statusText.data <:+:
        ("Failed to make request: " ++ sresp.statusText).data ∧
    vresp.statusText.data <:+:
        ("Failed to make request: " ++ vresp.statusText).data := by
  refine ⟨by simp [Search.implementation, hs], by simp [Visit.implementation, hv], ?_, ?_⟩
  all_goals
    rw [String.data_append]
    exact List.IsSuffix.isInfix (List.suffix_append _ _)

/-- C2 witness: both handlers observing a non-2xx response. -/
theorem handlers_non2xx_witness :
    Search.implementation baseConfig "weather" searchFailResponse =
        .ok (.str ("Failed to make request: " ++ searchFailResponse.statusText)) ∧
    Visit.implementation readNone baseConfig "https://example.com" false visitFailResponse =
        .str ("Failed to make request: " ++ visitFailResponse.statusText) ∧
    searchFailResponse.statusText.data <:+:
        ("Failed to make request: " ++ searchFailResponse.statusText).data ∧
    visitFailResponse.statusText.data <:+:
        ("Failed to make request: " ++ visitFailResponse.statusText).data :=
  handlers_non2xx_returnStatusText readNone baseConfig "weather"
    "https://example.com" false searchFailResponse visitFailResponse rfl rfl

/-- C3: on a successful response, when the per-call `returnRaw` flag or the
configured `forceRaw` flag is set, Visit returns the response body text
verbatim; with `forceRaw` set, a call with `returnRaw = false` behaves
identically to a call with `returnRaw = true`. -/
theorem visit_raw_returnsBody
    (readability : String → Option Article) (config : PluginConfig)
    (u : String) (returnRaw : Bool) (vresp : VisitHttpResponse)
    (hok : vresp.ok = true)
    (hraw : returnRaw = true ∨ config.visit.forceRaw = true) :
    Visit.implementation readability config u returnRaw vresp = .str vresp.body ∧
    (config.visit.forceRaw = true →
      Visit.implementation readability config u false vresp =
        Visit.implementation readability config u true vresp) := by
  constructor
  · rcases hraw with h | h <;> simp [Visit.implementation, hok, h]
  · intro hf
    simp [Visit.implementation, hok, hf]

/-- C3 witness: `forceRaw` configured, `returnRaw` left at its default. -/
theorem visit_raw_witness :
    Visit.implementation readMessy forceRawConfig "https://example.com" false
        visitOkResponse = .str visitOkResponse.body ∧
    (forceRawConfig.visit.forceRaw = true →
      Visit.implementation readMessy forceRawConfig "https://example.com" false
          visitOkResponse =
        Visit.implementation readMessy forceRawConfig "https://example.com" true
          visitOkResponse) :=
  visit_raw_returnsBody readMessy forceRawConfig "https://example.com" false
    visitOkResponse rfl (Or.inr rfl)

/-- C5: on a successful non-raw call where the Readability extraction
returns null, Visit returns the fixed failure string. -/
theorem visit_extractionFailure_fixedString
    (readability : String → Option Article) (config : PluginConfig)
    (u : String) (vresp : VisitHttpResponse)
    (hok : vresp.ok = true) (hforce : config.visit.forceRaw = false)
    (hparse : readability vresp.body = none) :
    Visit.implementation readability config u false vresp =
        .str extractionFailureMsg ∧
    extractionFailureMsg = "Failed to extract readable content." := by
  refine ⟨?_, rfl⟩
  simp [Visit.implementation, hok, hforce, hparse]

/-- C5 witness: an extraction oracle that finds no article. -/
theorem visit_extractionFailure_witness :
    Visit.implementation readNone baseConfig "https://example.com" false
        visitOkResponse = .str extractionFailureMsg ∧
    extractionFailureMsg = "Failed to extract readable content." :=
  visit_extractionFailure_fixedString readNone baseConfig "https://example.com"
    visitOkResponse rfl rfl rfl

/-- C6: the final Search implementation maps the safe-search enum to the
numeric `safesearch` parameter as Off→2, Moderate→1, Strict→0, with every
value other than Moderate and Strict yielding 2; that number is the value
of the `safesearch` query parameter. -/
theorem search_safeSearchMapping :
    safeSearchNum "Off" = 2 ∧ safeSearchNum "Moderate" = 1 ∧
    safeSearchNum "Strict" = 0 ∧
    (∀ v : String, v ≠ "Moderate" → v ≠ "Strict" → safeSearchNum v = 2) ∧
    ∀ (config : SearchConfig) (query : String),
      ("safesearch", toString (safeSearchNum config.safeSearch)) ∈
        searchParamsList config query := by
  refine ⟨rfl, rfl, rfl, ?_, ?_⟩
  · intro v h1 h2
    simp [safeSearchNum, h1, h2]
  · intro config query
    simp [searchParamsList]

/-- C6 witness: a value that is neither Moderate nor Strict maps to 2. -/
theorem search_safeSearchMapping_witness : safeSearchNum "Medium" = 2 :=
  search_safeSearchMapping.2.2.2.1 "Medium" (by decide) (by decide)

set_option maxRecDepth 8000 in
/-- C8 counterexample: the claimed substring uses `%20` for the space in
the query, but the WHATWG form-urlencoded serialiser used by
`URLSearchParams` encodes a space as `+`, so the claimed substring does not
occur in the constructed URL. -/
theorem searchURL_noPercent20 :
    ¬ ("q=weather%20today&engines=bing&language=en-US&format=json&safesearch=2".data <:+:
      searchURL c8SearchConfig "weather today") := by decide

set_option maxRecDepth 8000 in
/-- C8 amended: with the space encoded as `+`, the constructed URL does
contain the expected parameter run. -/
theorem searchURL_plusEncoded :
    "q=weather+today&engines=bing&language=en-US&format=json&safesearch=2".data <:+:
      searchURL c8SearchConfig "weather today" := by decide

/-- C9: on a 2xx response whose body is not valid JSON, or is JSON without
a `results` array, the Search handler returns no value: the thrown
SyntaxError/TypeError propagates as an uncaught fault. -/
theorem search_badJson_uncaught (config : PluginConfig) (query : String)
    (resp : SearchHttpResponse) (hok : resp.ok = true)
    (hbad : resp.jsonBody = none ∨
      ∃ d, resp.jsonBody = some d ∧ d.results = none) :
    Search.implementation config query resp = .error () := by
  rcases hbad with h | ⟨d, hd, hr⟩
  · simp [Search.implementation, hok, h]
  · simp [Search.implementation, hok, hd, hr]

/-- C9 witness: a 2xx response with an unparseable body. -/
theorem search_badJson_witness :
    Search.implementation baseConfig "weather" badJsonResponse = .error () :=
  search_badJson_uncaught baseConfig "weather" badJsonResponse rfl (Or.inl rfl)

/-- C10: when extraction succeeds but yields a null `textContent`, the
null is replaced by the empty string and Visit still returns the
structured article object, whose `content` is the empty string. -/
theorem visit_nullTextContent_emptyString
    (readability : String → Option Article) (config : PluginConfig)
    (u : String) (vresp : VisitHttpResponse) (article : Article)
    (hok : vresp.ok = true) (hforce : config.visit.forceRaw = false)
    (hparse : readability vresp.body = some article)
    (hnull : article.textContent = none) :
    Visit.implementation readability config u false vresp =
      .article ⟨article.title, "", article.excerpt, article.byline,
        article.siteName, article.lang, article.publishedTime⟩ := by
  simp only [Visit.implementation, hok, hforce, hparse, Bool.not_true,
    Bool.false_or, if_neg (by simp : ¬false = true)]
  have ht : visitCleanText article = [] := by
    unfold visitCleanText
    rw [hnull]
    rfl
  have hcontent : visitContent config.visit.maxContentLength article = [] := by
    rw [visitContent, ht]
    simp
  rw [hcontent]

/-- C4: with a configured `maxContentLength = L > 0` and a normalised text
longer than L, the returned `content` is exactly the first L characters of
the normalised text followed by the literal truncation marker; with the
text at most L characters long, or `L = 0`, the content is the normalised
text unchanged. -/
theorem visit_maxContentLength_truncates
    (readability : String → Option Article) (config : PluginConfig)
    (u : String) (vresp : VisitHttpResponse) (article : Article)
    (hok : vresp.ok = true) (hforce : config.visit.forceRaw = false)
    (hparse : readability vresp.body = some article) :
    (config.visit.maxContentLength > 0 →
      (visitCleanText article).length > config.visit.maxContentLength →
      Visit.implementation readability config u false vresp =
        .article ⟨article.title,
          ⟨(visitCleanText article).take config.visit.maxContentLength ++
            truncationMarker.data⟩,
          article.excerpt, article.byline, article.siteName, article.lang,
          article.publishedTime⟩) ∧
    ((config.visit.maxContentLength = 0 ∨
        (visitCleanText article).length ≤ config.visit.maxContentLength) →
      Visit.implementation readability config u false vresp =
        .article ⟨article.title, ⟨visitCleanText article⟩, article.excerpt,
          article.byline, article.siteName, article.lang,
          article.publishedTime⟩) := by
  constructor
  · intro h1 h2
    simp only [Visit.implementation, hok, hforce, hparse, Bool.not_true,
      Bool.false_or, if_neg (by simp : ¬false = true)]
    rw [visitContent, if_pos ⟨h1, h2⟩]
  · intro h
    simp only [Visit.implementation, hok, hforce, hparse, Bool.not_true,
      Bool.false_or, if_neg (by simp : ¬false = true)]
    rw [visitContent, if_neg (by omega)]

/-- C4 witness: normalised text `abcdefghij` with `maxContentLength = 5`
truncates to the first five characters plus the marker. -/
theorem visit_truncation_witness :
    Visit.implementation readLong truncConfig "https://example.com" false
        visitOkResponse =
      .article ⟨longArticle.title,
        ⟨(visitCleanText longArticle).take truncConfig.visit.maxContentLength ++
          truncationMarker.data⟩,
        longArticle.excerpt, longArticle.byline, longArticle.siteName,
        longArticle.lang, longArticle.publishedTime⟩ :=
  (visit_maxContentLength_truncates readLong truncConfig "https://example.com"
    visitOkResponse longArticle rfl rfl rfl).1 (by decide) (by decide)

/-! ### Lemmas about the whitespace normalisation -/

theorem wsPrefixLastNl_isSome_of_headNl {l : List Char}
    (h : l.head? = some '\n') : (wsPrefixLastNl l).isSome := by
  cases l with
  | nil => simp at h
  | cons c cs =>
    have hc : c = '\n' := by simpa using h
    subst hc
    have hws : jsWs '\n' = true := by decide
    simp only [wsPrefixLastNl, hws, if_true]
    cases hk : wsPrefixLastNl cs <;> simp [hk]

theorem wsPrefixLastNl_drop_head {l : List Char} {k : Nat}
    (h : wsPrefixLastNl l = some k) : (l.drop (k + 1)).head? ≠ some '\n' := by
  induction l generalizing k with
  | nil => simp [wsPrefixLastNl] at h
  | cons c cs ih =>
    simp only [wsPrefixLastNl] at h
    by_cases hws : jsWs c = true
    · rw [if_pos hws] at h
      cases hk : wsPrefixLastNl cs with
      | some k' =>
        rw [hk] at h
        have hkk : k = k' + 1 := by
          injection h with h1
          omega
        subst hkk
        simpa [List.drop_succ_cons] using ih hk
      | none =>
        rw [hk] at h
        by_cases hnl : (c == '\n') = true
        · rw [if_pos hnl] at h
          have hk0 : k = 0 := by injection h with h1; omega
          subst hk0
          simp only [List.drop_succ_cons, List.drop_zero]
          intro hcontra
          have hs := wsPrefixLastNl_isSome_of_headNl hcontra
          rw [hk] at hs
          simp at hs
        · rw [if_neg hnl] at h
          exact absurd h (by simp)
    · rw [if_neg hws] at h
      simp at h

theorem collapseNlF_head (fuel : Nat) (l : List Char) :
    (collapseNlF fuel l).head? = l.head? := by
  cases l with
  | nil => cases fuel <;> rfl
  | cons c cs =>
    cases fuel with
    | zero => rfl
    | succ fuel =>
      simp only [collapseNlF]
      by_cases h : (c == '\n') = true
      · rw [if_pos h]
        have hc : c = '\n' := by simpa using h
        cases hk : wsPrefixLastNl cs <;> simp [hc]
      · rw [if_neg h]
        simp

theorem collapseNlF_noDoubleNewline {fuel : Nat} :
    ∀ {l : List Char}, l.length ≤ fuel → noDoubleNewline (collapseNlF fuel l) := by
  unfold noDoubleNewline
  induction fuel with
  | zero =>
    intro l hl
    have h0 : l = [] := List.eq_nil_of_length_eq_zero (Nat.le_zero.mp hl)
    subst h0
    simp [collapseNlF, collapseSpacesF]
  | succ fuel ih =>
    intro l hl
    cases l with
    | nil => simp [collapseNlF]
    | cons c cs =>
      simp only [List.length_cons] at hl
      have hcs : cs.length ≤ fuel := by omega
      simp only [collapseNlF]
      by_cases h : (c == '\n') = true
      · rw [if_pos h]
        have hc : c = '\n' := by simpa using h
        subst hc
        cases hk : wsPrefixLastNl cs with
        | some k =>
          have hdl : (cs.drop (k + 1)).length ≤ fuel := by
            simp only [List.length_drop]
            omega
          refine List.chain'_cons'.mpr ⟨?_, ih hdl⟩
          intro y hy hcon
          rcases hcon with ⟨-, rfl⟩
          rw [collapseNlF_head] at hy
          exact wsPrefixLastNl_drop_head hk hy
        | none =>
          refine List.chain'_cons'.mpr ⟨?_, ih hcs⟩
          intro y hy hcon
          rcases hcon with ⟨-, rfl⟩
          rw [collapseNlF_head] at hy
          have hs := wsPrefixLastNl_isSome_of_headNl hy
          rw [hk] at hs
          simp at hs
      · rw [if_neg h]
        refine List.chain'_cons'.mpr ⟨?_, ih hcs⟩
        intro y hy hcon
        exact h (by simp [hcon.1])

theorem collapseSpacesF_head_st {fuel : Nat} {l : List Char} {d : Char}
    (h : (collapseSpacesF fuel l).head? = some d) (hd : isSpaceTab d = true) :
    ∃ e, l.head? = some e ∧ isSpaceTab e = true := by
  cases l with
  | nil => cases fuel <;> simp [collapseSpacesF] at h
  | cons c cs =>
    cases fuel with
    | zero =>
      have hc : c = d := by simpa [collapseSpacesF] using h
      exact ⟨c, rfl, hc ▸ hd⟩
    | succ fuel =>
      simp only [collapseSpacesF] at h
      by_cases hc : isSpaceTab c = true
      · exact ⟨c, rfl, hc⟩
      · rw [if_neg hc] at h
        have hcd : c = d := by simpa using h
        exact absurd (hcd ▸ hd) hc

theorem collapseSpacesF_head_nl {fuel : Nat} {l : List Char}
    (h : (collapseSpacesF fuel l).head? = some '\n') : l.head? = some '\n' := by
  cases l with
  | nil => cases fuel <;> simp [collapseSpacesF] at h
  | cons c cs =>
    cases fuel with
    | zero => simpa [collapseSpacesF] using h
    | succ fuel =>
      simp only [collapseSpacesF] at h
      by_cases hc : isSpaceTab c = true
      · rw [if_pos hc] at h
        simp at h
      · rw [if_neg hc] at h
        simpa using h

theorem collapseSpacesF_noDoubleSpaceTab {fuel : Nat} :
    ∀ {l : List Char}, l.length ≤ fuel →
      noDoubleSpaceTab (collapseSpacesF fuel l) := by
  unfold noDoubleSpaceTab
  induction fuel with
  | zero =>
    intro l hl
    have h0 : l = [] := List.eq_nil_of_length_eq_zero (Nat.le_zero.mp hl)
    subst h0
    simp [collapseNlF, collapseSpacesF]
  | succ fuel ih =>
    intro l hl
    cases l with
    | nil => simp [collapseSpacesF]
    | cons c cs =>
      simp only [List.length_cons] at hl
      have hcs : cs.length ≤ fuel := by omega
      simp only [collapseSpacesF]
      by_cases hc : isSpaceTab c = true
      · rw [if_pos hc]
        have hdwl : (cs.dropWhile isSpaceTab).length ≤ fuel :=
          le_trans (List.dropWhile_suffix isSpaceTab).sublist.length_le hcs
        refine List.chain'_cons'.mpr ⟨?_, ih hdwl⟩
        intro y hy hcon
        obtain ⟨e, he, hest⟩ := collapseSpacesF_head_st hy hcon.2
        have hnot := List.head?_dropWhile_not isSpaceTab cs
        rw [he] at hnot
        simp only at hnot
        exact absurd hest (by simp [hnot])
      · rw [if_neg hc]
        refine List.chain'_cons'.mpr ⟨?_, ih hcs⟩
        intro y hy hcon
        exact hc hcon.1

theorem collapseSpacesF_noDoubleNewline {fuel : Nat} :
    ∀ {l : List Char}, l.length ≤ fuel → noDoubleNewline l →
      noDoubleNewline (collapseSpacesF fuel l) := by
  unfold noDoubleNewline
  induction fuel with
  | zero =>
    intro l hl _
    have h0 : l = [] := List.eq_nil_of_length_eq_zero (Nat.le_zero.mp hl)
    subst h0
    simp [collapseSpacesF]
  | succ fuel ih =>
    intro l hl h
    cases l with
    | nil => simp [collapseSpacesF]
    | cons c cs =>
      simp only [List.length_cons] at hl
      have hcs : cs.length ≤ fuel := by omega
      have htail := (List.chain'_cons'.mp h).2
      simp only [collapseSpacesF]
      by_cases hc : isSpaceTab c = true
      · rw [if_pos hc]
        have hdw := List.Chain'.suffix htail (List.dropWhile_suffix isSpaceTab)
        have hdwl : (cs.dropWhile isSpaceTab).length ≤ fuel :=
          le_trans (List.dropWhile_suffix isSpaceTab).sublist.length_le hcs
        refine List.chain'_cons'.mpr ⟨?_, ih hdwl hdw⟩
        intro y hy hcon
        exact absurd hcon.1 (by decide)
      · rw [if_neg hc]
        refine List.chain'_cons'.mpr ⟨?_, ih hcs htail⟩
        intro y hy hcon
        rcases hcon with ⟨hc1, rfl⟩
        have hyn : cs.head? = some '\n' := collapseSpacesF_head_nl hy
        exact (List.chain'_cons'.mp h).1 '\n' hyn ⟨hc1, rfl⟩

theorem dropWhile_head_false {p : Char → Bool} {l : List Char} {c : Char}
    (h : (l.dropWhile p).head? = some c) : p c = false := by
  have hnot := List.head?_dropWhile_not p l
  rw [h] at hnot
  simpa using hnot

theorem jsTrim_within (l : List Char) : jsTrim l <:+: l := by
  unfold jsTrim
  have h1 : l.dropWhile jsWs <:+ l := List.dropWhile_suffix jsWs
  have h2 : (l.dropWhile jsWs).reverse.dropWhile jsWs <:+
      (l.dropWhile jsWs).reverse := List.dropWhile_suffix jsWs
  have h3 : ((l.dropWhile jsWs).reverse.dropWhile jsWs).reverse <+:
      l.dropWhile jsWs :=
    List.reverse_suffix.mp (by simpa using h2)
  exact List.IsInfix.trans ( List.IsPrefix.isInfix h3) ( List.IsSuffix.isInfix h1)

theorem jsTrim_getLast {l : List Char} {c : Char}
    (h : (jsTrim l).getLast? = some c) : jsWs c = false := by
  unfold jsTrim at h
  rw [List.getLast?_reverse] at h
  exact dropWhile_head_false h

theorem jsTrim_head {l : List Char} {c : Char}
    (h : (jsTrim l).head? = some c) : jsWs c = false := by
  unfold jsTrim at h
  rw [List.head?_reverse] at h
  obtain ⟨pre, hpre⟩ := List.dropWhile_suffix (l := (l.dropWhile jsWs).reverse) jsWs
  have hmne : (l.dropWhile jsWs).reverse.dropWhile jsWs ≠ [] := by
    intro h0
    rw [h0] at h
    simp at h
  have hlast : ((l.dropWhile jsWs).reverse).getLast? = some c := by
    rw [← hpre, List.getLast?_append_of_ne_nil _ hmne]
    exact h
  rw [List.getLast?_reverse] at hlast
  exact dropWhile_head_false hlast

theorem visitCleanText_noDoubleNewline (a : Article) :
    noDoubleNewline (visitCleanText a) :=
  List.Chain'.infix
    (collapseSpacesF_noDoubleNewline (le_refl _)
      (collapseNlF_noDoubleNewline (le_refl _)))
    (jsTrim_within _)

theorem visitCleanText_noDoubleSpaceTab (a : Article) :
    noDoubleSpaceTab (visitCleanText a) :=
  List.Chain'.infix (collapseSpacesF_noDoubleSpaceTab (le_refl _)) (jsTrim_within _)

theorem visitCleanText_noEdgeWs (a : Article) : noEdgeWs (visitCleanText a) := by
  constructor
  · intro c hc
    exact jsTrim_head (Option.mem_def.mp hc)
  · intro c hc
    exact jsTrim_getLast (Option.mem_def.mp hc)

theorem adjOK_chain' {p : Char → Char → Bool} :
    ∀ {l : List Char}, adjOK p l = true → l.Chain' fun a b => p a b = true
  | [], _ => List.chain'_nil
  | [a], _ => List.chain'_singleton a
  | a :: b :: rest, h => by
    simp only [adjOK, Bool.and_eq_true] at h
    exact List.chain'_cons.mpr ⟨h.1, adjOK_chain' h.2⟩

theorem truncationMarker_noDoubleNewline : noDoubleNewline truncationMarker.data :=
  List.Chain'.imp
    (fun a b h hc => by
      rcases hc with ⟨rfl, rfl⟩
      exact absurd h (by decide))
    (adjOK_chain' (p := fun a b => !(a == '\n' && b == '\n')) (by decide))

theorem truncationMarker_noDoubleSpaceTab :
    noDoubleSpaceTab truncationMarker.data :=
  List.Chain'.imp
    (fun a b h hc => by
      have h' : (!(isSpaceTab a && isSpaceTab b)) = true := h
      rw [hc.1, hc.2] at h'
      exact absurd h' (by decide))
    (adjOK_chain' (p := fun a b => !(isSpaceTab a && isSpaceTab b)) (by decide))

theorem head_take_append {t m : List Char} {L : Nat} (hL : 0 < L)
    (ht : t ≠ []) : (t.take L ++ m).head? = t.head? := by
  cases t with
  | nil => exact absurd rfl ht
  | cons x xs =>
    cases L with
    | zero => omega
    | succ n => simp

theorem visitContent_noDoubleNewline (L : Nat) (a : Article) :
    noDoubleNewline (visitContent L a) := by
  rw [visitContent]
  by_cases h : L > 0 ∧ (visitCleanText a).length > L
  · rw [if_pos h]
    refine List.chain'_append.mpr
      ⟨List.Chain'.take (visitCleanText_noDoubleNewline a) L,
        truncationMarker_noDoubleNewline, ?_⟩
    intro x hx y hy hcon
    have hy' : y = '.' := by
      have hh : truncationMarker.data.head? = some '.' := by decide
      rw [hh] at hy
      exact (show ('.' : Char) = y by simpa using hy).symm
    rw [hy'] at hcon
    exact absurd hcon.2 (by decide)
  · rw [if_neg h]
    exact visitCleanText_noDoubleNewline a

theorem visitContent_noDoubleSpaceTab (L : Nat) (a : Article) :
    noDoubleSpaceTab (visitContent L a) := by
  rw [visitContent]
  by_cases h : L > 0 ∧ (visitCleanText a).length > L
  · rw [if_pos h]
    refine List.chain'_append.mpr
      ⟨List.Chain'.take (visitCleanText_noDoubleSpaceTab a) L,
        truncationMarker_noDoubleSpaceTab, ?_⟩
    intro x hx y hy hcon
    have hy' : y = '.' := by
      have hh : truncationMarker.data.head? = some '.' := by decide
      rw [hh] at hy
      exact (show ('.' : Char) = y by simpa using hy).symm
    rw [hy'] at hcon
    exact absurd hcon.2 (by decide)
  · rw [if_neg h]
    exact visitCleanText_noDoubleSpaceTab a

theorem visitContent_noEdgeWs (L : Nat) (a : Article) :
    noEdgeWs (visitContent L a) := by
  rw [visitContent]
  by_cases h : L > 0 ∧ (visitCleanText a).length > L
  · rw [if_pos h]
    constructor
    · intro c hc
      have htne : visitCleanText a ≠ [] := by
        intro h0
        rw [h0] at h
        simp at h
      rw [head_take_append h.1 htne] at hc
      exact jsTrim_head (Option.mem_def.mp hc)
    · intro c hc
      have hmne : truncationMarker.data ≠ [] := by decide
      rw [List.getLast?_append_of_ne_nil _ hmne] at hc
      have hc' : c = 't' := by
        have hh : truncationMarker.data.getLast? = some 't' := by decide
        rw [hh] at hc
        exact (show ('t' : Char) = c by simpa using hc).symm
      rw [hc']
      decide
  · rw [if_neg h]
    exact visitCleanText_noEdgeWs a

/-- C7: on extraction success the returned `content` is the normalised
text (with the length cap applied): it contains no two adjacent newlines,
no two adjacent space/tab characters, and neither starts nor ends with
whitespace. -/
theorem visit_content_whitespaceNormalized
    (readability : String → Option Article) (config : PluginConfig)
    (u : String) (vresp : VisitHttpResponse) (article : Article)
    (hok : vresp.ok = true) (hforce : config.visit.forceRaw = false)
    (hparse : readability vresp.body = some article) :
    Visit.implementation readability config u false vresp =
      .article ⟨article.title,
        ⟨visitContent config.visit.maxContentLength article⟩,
        article.excerpt, article.byline, article.siteName, article.lang,
        article.publishedTime⟩ ∧
    noDoubleNewline (visitContent config.visit.maxContentLength article) ∧
    noDoubleSpaceTab (visitContent config.visit.maxContentLength article) ∧
    noEdgeWs (visitContent config.visit.maxContentLength article) := by
  refine ⟨?_, visitContent_noDoubleNewline _ _,
    visitContent_noDoubleSpaceTab _ _, visitContent_noEdgeWs _ _⟩
  simp [Visit.implementation, hok, hforce, hparse]

/-- C7 witness: a messy extracted text is returned normalised. -/
theorem visit_whitespace_witness :
    Visit.implementation readMessy baseConfig "https://example.com" false
        visitOkResponse =
      .article ⟨messyArticle.title,
        ⟨visitContent baseConfig.visit.maxContentLength messyArticle⟩,
        messyArticle.excerpt, messyArticle.byline, messyArticle.siteName,
        messyArticle.lang, messyArticle.publishedTime⟩ ∧
    noDoubleNewline (visitContent baseConfig.visit.maxContentLength messyArticle) ∧
    noDoubleSpaceTab (visitContent baseConfig.visit.maxContentLength messyArticle) ∧
    noEdgeWs (visitContent baseConfig.visit.maxContentLength messyArticle) :=
  visit_content_whitespaceNormalized readMessy baseConfig "https://example.com"
    visitOkResponse messyArticle rfl rfl rfl

/-- C10 witness: an article whose extracted text content is null. -/
theorem visit_nullTextContent_witness :
    Visit.implementation readNullContent baseConfig "https://example.com" false
        visitOkResponse =
      .article ⟨nullContentArticle.title, "", nullContentArticle.excerpt,
        nullContentArticle.byline, nullContentArticle.siteName,
        nullContentArticle.lang, nullContentArticle.publishedTime⟩ :=
  visit_nullTextContent_emptyString readNullContent baseConfig
    "https://example.com" visitOkResponse nullContentArticle rfl rfl rfl rfl

end WebPlugin
